import Mathlib

/-!
Verification development for the `github-pii-secret-app` repository
(`src/main.py`).  The service receives GitHub push webhooks, clones the
pushed repository, runs the configured PII/secret checkers over each
commit's changed files and posts findings to Slack.

Strings are embedded as `List Char` (a Python `str` is a sequence of
characters; all relevant operations here are character-wise).  External
effects (git clone, `repo.commit`, `subprocess.run`, Slack posts, the
GitHub API) are modelled by explicit oracles recording their outcomes, and
an exception raised by Python code is an `Except.error` / `some` error
value threaded explicitly.
-/

/-! ### Python string primitives used by `main.py` -/

/-- The ASCII whitespace characters recognised by Python's `str.strip()`
(the checkers' outputs are ASCII text). -/
def isPyWhitespace (c : Char) : Bool :=
  c = ' ' || c = '\t' || c = '\n' || c = '\r' || c = '\x0b' || c = '\x0c'

/-- `hasNonWs s` is `true` iff `s` contains a character that is not
whitespace, i.e. iff Python's `s.strip()` is a non-empty (truthy)
string. -/
def hasNonWs (s : List Char) : Bool :=
  s.any (fun c => !isPyWhitespace c)

/-- `joinSep sep l` is Python's `sep.join(l)`. -/
def joinSep (sep : List Char) : List (List Char) → List Char
  | [] => []
  | [x] => x
  | x :: y :: rest => x ++ sep ++ joinSep sep (y :: rest)

/-- One left-to-right pass of Python's `s.replace(p, "")`: whenever `p`
(non-empty) matches at the current position the matched characters are
consumed, otherwise the current character is kept.  The `fuel` argument
makes the recursion structural; every step consumes at least one character
of `s`, so `fuel = s.length` (see `removeAll`) never runs out: the
`0, s => s` fallback is only reached with `s = []` handled by the first
pattern. -/
def removeAllGo (p : List Char) : Nat → List Char → List Char
  | _, [] => []
  | 0, s => s
  | fuel + 1, c :: rest =>
    if p ≠ [] ∧ p.isPrefixOf (c :: rest) = true then
      removeAllGo p fuel (List.drop (p.length - 1) rest)
    else
      c :: removeAllGo p fuel rest

/-- Python's `s.replace(p, "")`: remove every (non-overlapping,
left-to-right) occurrence of `p` in `s`.  As in Python, replacing the
empty pattern by the empty string leaves `s` unchanged. -/
def removeAll (p s : List Char) : List Char :=
  removeAllGo p s.length s

/-- Substring test: `containsSub p s = true` iff `p` occurs contiguously
in `s` (Python's `p in s`); see `containsSub_iff`. -/
def containsSub (p : List Char) : List Char → Bool
  | [] => p.isEmpty
  | c :: rest => p.isPrefixOf (c :: rest) || containsSub p rest

/-! ### The scan orchestrator: `run_checks` (src/main.py lines 47-73) -/

/-- The three configured checker scripts of `CHECKS` (src/main.py lines
47-51): `pii_secret_filename.py`, `pii_secret_file_content.py`,
`pii_secret_file_content_ner.py`. -/
inductive Checker where
  | filename
  | fileContent
  | fileContentNer
deriving DecidableEq

/-- `CHECKS` (src/main.py line 47): the configured checkers in
declaration order. -/
def CHECKS : List Checker :=
  [Checker.filename, Checker.fileContent, Checker.fileContentNer]

/-- Lines 64-71 of `run_checks`: the aggregate buffer
`"\n".join(output for output in command_output if output.strip())`. -/
def aggregate_output (command_output : List (List Char)) : List Char :=
  joinSep ['\n'] (command_output.filter hasNonWs)

/-- `run_checks` (src/main.py lines 60-73) generalised over the list of
configured checkers (the source fixes it to the global `CHECKS`; see
`run_checks`).  The external `subprocess.run([sys.executable, command,
*_files], capture_output=True, text=True).stdout` is modelled by the
oracle `stdout`, mapping a checker and the absolute file arguments
`_files` to its captured standard output.  The path join
`str(PurePath(project_path) / PurePath(file_))` is embedded for relative
`file_` as `project_path ++ "/" ++ file_`. -/
def run_checks_over (checks : List Checker)
    (stdout : Checker → List (List Char) → List Char)
    (project_path : List Char) (files : List (List Char)) :
    Option (List Char) :=
  let _files := files.map (fun file_ => project_path ++ '/' :: file_)
  let command_output := checks.map (fun command => stdout command _files)
  let output_text := aggregate_output command_output
  if output_text.isEmpty then none
  else some (removeAll project_path output_text)

/-- `run_checks` (src/main.py lines 60-73) with the configured `CHECKS`. -/
def run_checks (stdout : Checker → List (List Char) → List Char)
    (project_path : List Char) (files : List (List Char)) :
    Option (List Char) :=
  run_checks_over CHECKS stdout project_path files

/-! ### The worker (src/main.py lines 144-179) -/

/-- One commit record of a push payload: the fields of `data["commits"][i]`
read by the worker (src/main.py lines 158-175). -/
structure CommitRecord where
  id : List Char
  url : List Char
  authorName : List Char
  added : List (List Char)
  modified : List (List Char)
deriving DecidableEq

/-- The portion of a dequeued push payload read by the worker:
`data.get("commits", [])` (`none` models a payload with no `"commits"`
key) and `data["repository"]["git_url"]`. -/
structure PushData where
  commits : Option (List CommitRecord)
  gitUrl : List Char
deriving DecidableEq

/-- Oracles for the worker's external effects.  `clone` is
`clone_git_repo` (returning the fresh `project_path`, or the exception it
raises); `resolveCommit` is line 158's commit-resolution step
`repo.commit(commit["id"])` — note that in the source the name `repo` is
unbound, so in the running program this step raises `NameError`
unconditionally; the oracle models the intended GitPython call, which
raises on an unknown commit id.  `checksRaise pp files` tells whether the
`run_checks(project_path, files)` call raises an exception (e.g. a checker
that cannot be launched at all), and `stdout` gives each checker's
captured standard output (used by the pure `run_checks` when no exception
occurs). -/
structure WorkerEnv where
  clone : List Char → Except (List Char) (List Char)
  resolveCommit : List Char → Except (List Char) Unit
  checksRaise : List Char → List (List Char) → Option (List Char)
  stdout : Checker → List (List Char) → List Char

/-- Observable effects of one worker-loop iteration, in program order. -/
inductive Effect where
  /-- `clone_git_repo(data["repository"]["git_url"])` (line 155). -/
  | clone (url : List Char)
  /-- `repo.commit(commit["id"])` (line 158). -/
  | resolve (id : List Char)
  /-- a `run_checks(project_path, files)` invocation (line 163). -/
  | scan (projectPath : List Char) (files : List (List Char))
  /-- `slack_notify(app, message)` (lines 165 and 175). -/
  | notify (message : List Char)
  /-- `shutil.rmtree(project_path)` scheduled (line 177). -/
  | teardown (projectPath : List Char)
  /-- `app["worker_queue"].task_done()` (line 179). -/
  | taskDone
deriving DecidableEq

/-- Line 160: `files = list(set([*commit["added"], *commit["modified"]]))`.
Python's set-iteration order is unspecified; the embedding fixes one
deduplication order (the claims only use membership and emptiness). -/
def commitFiles (c : CommitRecord) : List (List Char) :=
  (c.added ++ c.modified).dedup

/-- Line 165: the error notification `f"An error occured: {ex}"` (typo as
in the source). -/
def errMsg (e : List Char) : List Char :=
  ("An error occured: ").data ++ e

/-- Lines 169-174: the findings notification f-string. -/
def findingsMsg (c : CommitRecord) (out : List Char) : List Char :=
  ("Possible PII violations found in:\n").data ++ c.url ++
    ("\nAuthor: ").data ++ c.authorName ++ ("\n\n").data ++ out ++
    ("\n").data

/-- The body of the `for commit in commits` loop (src/main.py lines
157-175) for one commit: the effects it performs, paired with `some e`
when it raises an uncaught exception `e` (which aborts the job), else
`none`.  The `try`/`except` of lines 162-166 only covers the `run_checks`
call; an exception from line 158's commit resolution is not caught.
Line 168's `if output:` is false exactly for `None` and for the empty
string. -/
def processCommit (env : WorkerEnv) (pp : List Char) (c : CommitRecord) :
    List Effect × Option (List Char) :=
  match env.resolveCommit c.id with
  | Except.error e => ([Effect.resolve c.id], some e)
  | Except.ok _ =>
    match env.checksRaise pp (commitFiles c) with
    | some e =>
      ([Effect.resolve c.id, Effect.scan pp (commitFiles c),
        Effect.notify (errMsg e)], none)
    | none =>
      match run_checks env.stdout pp (commitFiles c) with
      | some out =>
        if out.isEmpty then
          ([Effect.resolve c.id, Effect.scan pp (commitFiles c)], none)
        else
          ([Effect.resolve c.id, Effect.scan pp (commitFiles c),
            Effect.notify (findingsMsg c out)], none)
      | none => ([Effect.resolve c.id, Effect.scan pp (commitFiles c)], none)

/-- The `for commit in commits` loop: commits are processed in payload
order; an uncaught exception stops the loop (and the whole worker task). -/
def processCommits (env : WorkerEnv) (pp : List Char) :
    List CommitRecord → List Effect × Option (List Char)
  | [] => ([], none)
  | c :: rest =>
    match processCommit env pp c with
    | (evs, some e) => (evs, some e)
    | (evs, none) =>
      match processCommits env pp rest with
      | (evs2, err) => (evs ++ evs2, err)

/-- One iteration of the worker loop on a dequeued payload (src/main.py
lines 150-179): the effects performed, paired with `some e` when the
iteration raises an uncaught exception `e` (terminating the worker task
before `rmtree`/`task_done`), else `none`. -/
def worker_step (env : WorkerEnv) (data : PushData) :
    List Effect × Option (List Char) :=
  let commits := data.commits.getD []
  if commits.isEmpty then ([Effect.taskDone], none)
  else
    match env.clone data.gitUrl with
    | Except.error e => ([Effect.clone data.gitUrl], some e)
    | Except.ok pp =>
      match processCommits env pp commits with
      | (evs, some e) => (Effect.clone data.gitUrl :: evs, some e)
      | (evs, none) =>
        (Effect.clone data.gitUrl ::
          (evs ++ [Effect.teardown pp, Effect.taskDone]), none)

/-- Number of workspace-teardown effects in a trace. -/
def countTeardown (t : List Effect) : Nat :=
  t.countP (fun ev => match ev with
    | Effect.teardown _ => true
    | _ => false)

/-! ### The webhook handler (src/main.py lines 89-141) -/

/-- The fields of a parsed `sansio.Event` that the handler and the
routing table read: `event.event`, the payload's `"action"` field, and
(for push events) the payload `event.data` handed to the queue. -/
structure GhEvent where
  kind : List Char
  action : Option (List Char)
  data : PushData

/-- `router.dispatch(event, gh, app=app)` with the two registered
handlers (src/main.py lines 114-141): a `push` event enqueues its payload
(`put_nowait`, modelled as appending to the FIFO queue); an
`installation`/`created` event performs external GitHub calls whose
outcome is the oracle `instEffect` (an exception propagates); any other
event matches no handler and does nothing. -/
def routerDispatch (instEffect : Except (List Char) Unit) (ev : GhEvent)
    (queue : List PushData) : Except (List Char) (List PushData) :=
  if ev.kind = ("push").data then Except.ok (queue ++ [ev.data])
  else if ev.kind = ("installation").data ∧ ev.action = some (("created").data)
  then
    match instEffect with
    | Except.error e => Except.error e
    | Except.ok _ => Except.ok queue
  else Except.ok queue

/-- The `POST /webhook` handler (src/main.py lines 89-111), returning the
HTTP status and the worker queue after the request.  `fromHttp` is the
outcome of `sansio.Event.from_http(request.headers, body, secret=secret)`:
`Except.error` when it raises, in particular `ValidationFailure` for a
payload whose signature does not validate against the shared secret.  Any
exception is caught by the handler's `except Exception` and answered with
status 500. -/
def webhook (fromHttp : Except (List Char) GhEvent)
    (instEffect : Except (List Char) Unit) (queue : List PushData) :
    Nat × List PushData :=
  match fromHttp with
  | Except.error _ => (500, queue)
  | Except.ok ev =>
    if ev.kind = ("ping").data then (200, queue)
    else
      match routerDispatch instEffect ev queue with
      | Except.error _ => (500, queue)
      | Except.ok q2 => (200, q2)

/-- Client-error HTTP statuses (4xx). -/
def isClientError (status : Nat) : Prop :=
  400 ≤ status ∧ status < 500

/-! ### Supporting lemmas -/

theorem isPrefixOf_iff_exists (p s : List Char) :
    p.isPrefixOf s = true ↔ ∃ t, p ++ t = s := by
  induction p generalizing s with
  | nil => simp [List.isPrefixOf]
  | cons a as ih =>
    cases s with
    | nil => simp [List.isPrefixOf]
    | cons b bs =>
      simp only [List.isPrefixOf, Bool.and_eq_true, beq_iff_eq, ih,
        List.cons_append, List.cons.injEq]
      constructor
      · rintro ⟨rfl, t, rfl⟩; exact ⟨t, rfl, rfl⟩
      · rintro ⟨t, rfl, rfl⟩; exact ⟨rfl, t, rfl⟩

theorem containsSub_iff (p s : List Char) :
    containsSub p s = true ↔ ∃ l r, l ++ p ++ r = s := by
  induction s with
  | nil =>
    simp only [containsSub, List.isEmpty_iff]
    constructor
    · intro hp; exact ⟨[], [], by simp [hp]⟩
    · rintro ⟨l, r, h⟩
      rcases List.append_eq_nil.mp h with ⟨h2, -⟩
      exact (List.append_eq_nil.mp h2).2
  | cons c rest ih =>
    simp only [containsSub, Bool.or_eq_true, ih, isPrefixOf_iff_exists]
    constructor
    · rintro (⟨t, ht⟩ | ⟨l, r, hlr⟩)
      · exact ⟨[], t, by simpa using ht⟩
      · exact ⟨c :: l, r, by simp [hlr]⟩
    · rintro ⟨l, r, h⟩
      cases l with
      | nil => exact Or.inl ⟨r, by simpa using h⟩
      | cons a l2 =>
        rw [List.cons_append, List.cons_append, List.cons.injEq] at h
        exact Or.inr ⟨l2, r, h.2⟩

theorem removeAllGo_of_not_contains (p : List Char) (fuel : Nat)
    (s : List Char) (h : containsSub p s = false) :
    removeAllGo p fuel s = s := by
  induction fuel generalizing s with
  | zero => cases s <;> rfl
  | succ n ih =>
    cases s with
    | nil => rfl
    | cons c rest =>
      rw [containsSub, Bool.or_eq_false_iff] at h
      rw [removeAllGo, if_neg, ih rest h.2]
      rintro ⟨-, hpre⟩
      rw [h.1] at hpre
      exact Bool.false_ne_true hpre

/-- If `p` does not occur in `s`, Python's `s.replace(p, "")` is `s`. -/
theorem removeAll_of_not_contains (p s : List Char)
    (h : containsSub p s = false) : removeAll p s = s :=
  removeAllGo_of_not_contains p s.length s h

/-- Every element of `l` occurs contiguously in `sep.join(l)`. -/
theorem mem_joinSep_sub (sep : List Char) (l : List (List Char))
    (o : List Char) (ho : o ∈ l) :
    ∃ ll rr, ll ++ o ++ rr = joinSep sep l := by
  induction l with
  | nil => cases ho
  | cons x rest ih =>
    cases rest with
    | nil =>
      rcases List.mem_cons.mp ho with rfl | hmem
      · exact ⟨[], [], by simp [joinSep]⟩
      · cases hmem
    | cons y rest2 =>
      rcases List.mem_cons.mp ho with rfl | hmem
      · exact ⟨[], sep ++ joinSep sep (y :: rest2), by simp [joinSep]⟩
      · obtain ⟨ll, rr, hh⟩ := ih hmem
        exact ⟨x ++ sep ++ ll, rr, by
          simp only [joinSep, List.append_assoc, hh]⟩

/-- When the commit id resolves, the loop body never raises: every other
failure is caught by the `try`/`except` around `run_checks`. -/
theorem processCommit_snd_none (env : WorkerEnv) (pp : List Char)
    (c : CommitRecord) (hres : env.resolveCommit c.id = Except.ok ()) :
    (processCommit env pp c).2 = none := by
  unfold processCommit
  rw [hres]
  cases h : env.checksRaise pp (commitFiles c) with
  | some e => rfl
  | none =>
    cases h2 : run_checks env.stdout pp (commitFiles c) with
    | none => rfl
    | some out =>
      by_cases hout : out.isEmpty <;> simp [hout]

/-- The loop body never schedules a workspace teardown. -/
theorem processCommit_no_teardown (env : WorkerEnv) (pp : List Char)
    (c : CommitRecord) : countTeardown (processCommit env pp c).1 = 0 := by
  unfold processCommit
  cases h : env.resolveCommit c.id with
  | error e => rfl
  | ok u =>
    cases h1 : env.checksRaise pp (commitFiles c) with
    | some e => rfl
    | none =>
      cases h2 : run_checks env.stdout pp (commitFiles c) with
      | none => rfl
      | some out =>
        by_cases hout : out.isEmpty <;> simp [hout, countTeardown]

/-- The commit loop never schedules a workspace teardown. -/
theorem processCommits_no_teardown (env : WorkerEnv) (pp : List Char)
    (cs : List CommitRecord) :
    countTeardown (processCommits env pp cs).1 = 0 := by
  induction cs with
  | nil => rfl
  | cons c rest ih =>
    unfold processCommits
    cases h : processCommit env pp c with
    | mk evs err =>
      have hc : countTeardown evs = 0 := by
        have := processCommit_no_teardown env pp c
        rw [h] at this
        exact this
      cases err with
      | some e => simpa using hc
      | none =>
        cases h2 : processCommits env pp rest with
        | mk evs2 err2 =>
          have hrest : countTeardown evs2 = 0 := by
            have := ih
            rw [h2] at this
            exact this
          show countTeardown (evs ++ evs2) = 0
          rw [countTeardown] at hc hrest ⊢
          rw [List.countP_append]
          omega

/-- When every commit id of the job resolves, the commit loop completes
without an uncaught exception. -/
theorem processCommits_snd_none (env : WorkerEnv) (pp : List Char)
    (cs : List CommitRecord)
    (hres : ∀ c, c ∈ cs → env.resolveCommit c.id = Except.ok ()) :
    (processCommits env pp cs).2 = none := by
  induction cs with
  | nil => rfl
  | cons c rest ih =>
    unfold processCommits
    cases h : processCommit env pp c with
    | mk evs err =>
      have hz : err = none := by
        have := processCommit_snd_none env pp c (hres c (List.mem_cons_self c rest))
        rw [h] at this
        exact this
      subst hz
      cases h2 : processCommits env pp rest with
      | mk evs2 err2 =>
        have : err2 = none := by
          have := ih (fun d hd => hres d (List.mem_cons_of_mem c hd))
          rw [h2] at this
          exact this
        simpa using this

/-! ### Step characterisations of the worker -/

/-- Loop body when the commit resolution raises: the exception is not
caught (the `try` of line 162 does not cover line 158). -/
theorem processCommit_resolve_err (env : WorkerEnv) (pp : List Char)
    (c : CommitRecord) (e : List Char)
    (hres : env.resolveCommit c.id = Except.error e) :
    processCommit env pp c = ([Effect.resolve c.id], some e) := by
  simp [processCommit, hres]

/-- Loop body when the `run_checks` call raises: caught, one error
notification, no uncaught exception. -/
theorem processCommit_raise (env : WorkerEnv) (pp : List Char)
    (c : CommitRecord) (e : List Char)
    (hres : env.resolveCommit c.id = Except.ok ())
    (hraise : env.checksRaise pp (commitFiles c) = some e) :
    processCommit env pp c =
      ([Effect.resolve c.id, Effect.scan pp (commitFiles c),
        Effect.notify (errMsg e)], none) := by
  simp [processCommit, hres, hraise]

/-- Loop body when the scan returns a truthy report: one findings
notification. -/
theorem processCommit_hit (env : WorkerEnv) (pp : List Char)
    (c : CommitRecord) (out : List Char)
    (hres : env.resolveCommit c.id = Except.ok ())
    (hraise : env.checksRaise pp (commitFiles c) = none)
    (hrun : run_checks env.stdout pp (commitFiles c) = some out)
    (hne : out ≠ []) :
    processCommit env pp c =
      ([Effect.resolve c.id, Effect.scan pp (commitFiles c),
        Effect.notify (findingsMsg c out)], none) := by
  cases out with
  | nil => exact absurd rfl hne
  | cons o os => simp [processCommit, hres, hraise, hrun]

/-- Loop body when the scan reports no findings (`None`). -/
theorem processCommit_noreport (env : WorkerEnv) (pp : List Char)
    (c : CommitRecord)
    (hres : env.resolveCommit c.id = Except.ok ())
    (hraise : env.checksRaise pp (commitFiles c) = none)
    (hrun : run_checks env.stdout pp (commitFiles c) = none) :
    processCommit env pp c =
      ([Effect.resolve c.id, Effect.scan pp (commitFiles c)], none) := by
  simp [processCommit, hres, hraise, hrun]

/-- Loop body when the scan returns the falsy empty report. -/
theorem processCommit_emptyreport (env : WorkerEnv) (pp : List Char)
    (c : CommitRecord)
    (hres : env.resolveCommit c.id = Except.ok ())
    (hraise : env.checksRaise pp (commitFiles c) = none)
    (hrun : run_checks env.stdout pp (commitFiles c) = some []) :
    processCommit env pp c =
      ([Effect.resolve c.id, Effect.scan pp (commitFiles c)], none) := by
  simp [processCommit, hres, hraise, hrun]

/-- When a commit's loop body raises no uncaught exception, the loop
simply continues: the remaining commits' effects follow it. -/
theorem processCommits_cons (env : WorkerEnv) (pp : List Char)
    (c : CommitRecord) (rest : List CommitRecord)
    (hsnd : (processCommit env pp c).2 = none) :
    processCommits env pp (c :: rest) =
      ((processCommit env pp c).1 ++ (processCommits env pp rest).1,
        (processCommits env pp rest).2) := by
  cases h : processCommit env pp c with
  | mk evs err =>
    rw [h] at hsnd
    simp only at hsnd
    subst hsnd
    simp only [processCommits, h]

/-- The worker iteration when the clone succeeds and the commit loop
raises no uncaught exception: clone, the commit effects, then exactly the
scheduled teardown and `task_done`. -/
theorem worker_step_ok (env : WorkerEnv) (data : PushData)
    (cs : List CommitRecord) (pp : List Char)
    (hc : data.commits = some cs) (hne : cs ≠ [])
    (hclone : env.clone data.gitUrl = Except.ok pp)
    (hsnd : (processCommits env pp cs).2 = none) :
    worker_step env data =
      (Effect.clone data.gitUrl ::
        ((processCommits env pp cs).1 ++
          [Effect.teardown pp, Effect.taskDone]), none) := by
  have hie : cs.isEmpty = false := by
    cases cs with
    | nil => exact absurd rfl hne
    | cons a l => rfl
  simp only [worker_step, hc, Option.getD_some, hie, Bool.false_eq_true,
    if_false, hclone]
  cases h2 : processCommits env pp cs with
  | mk evs err =>
    rw [h2] at hsnd
    simp only at hsnd
    subst hsnd
    rfl

/-! ### Claim C4 -/

/-- C4, counterexample: path-stripping is not total in the claimed sense.
With workspace root `"ab"` and aggregated checker output `"aabb"`,
`run_checks` returns the report `"ab"`, which contains the workspace root
path as a substring, and applying the stripping step a second time
changes the report (to the empty string). -/
theorem run_checks_strip_cex :
    run_checks
        (fun command _ =>
          if command = Checker.filename then ("aabb").data else [])
        (("ab").data) [] = some (("ab").data) ∧
    containsSub (("ab").data) (("ab").data) = true ∧
    removeAll (("ab").data) (("ab").data) ≠ ("ab").data := by
  decide

/-- C4, amended: the stripping step is total and removes the occurrences
present in one left-to-right pass, but removal can juxtapose fragments
that re-form the workspace root path, so the returned report may still
contain it; whenever the report returned by `run_checks` does not contain
the workspace root path, applying the stripping step a second time leaves
it unchanged. -/
theorem run_checks_strip_stable
    (stdout : Checker → List (List Char) → List Char)
    (pp : List Char) (files : List (List Char)) (out : List Char)
    (hrun : run_checks stdout pp files = some out)
    (hfree : containsSub pp out = false) :
    removeAll pp out = out :=
  removeAll_of_not_contains pp out hfree

/-- C4, witness for `run_checks_strip_stable` at a concrete input. -/
theorem run_checks_strip_stable_wit :
    run_checks
        (fun command _ =>
          if command = Checker.filename then ("x").data else [])
        (("q").data) [] = some (("x").data) ∧
    containsSub (("q").data) (("x").data) = false ∧
    removeAll (("q").data) (("x").data) = ("x").data := by
  have h1 : run_checks
      (fun command _ =>
        if command = Checker.filename then ("x").data else [])
      (("q").data) [] = some (("x").data) := by decide
  exact ⟨h1, by decide, run_checks_strip_stable _ _ _ _ h1 (by decide)⟩

/-! ### Claim C6 -/

/-- C6, counterexample: a checker output that is non-empty but consists
only of whitespace is dropped by the aggregation, so for outputs `" "`
and `"x"` (both non-empty) the aggregate buffer is not
`" " ++ "\n" ++ "x"`. -/
theorem aggregate_whitespace_cex :
    (" ").data ≠ [] ∧ ("x").data ≠ [] ∧
    aggregate_output [(" ").data, ("x").data] ≠
      (" ").data ++ '\n' :: ("x").data := by
  decide

/-- C6, amended: for two configured checkers A then B, when both outputs
contain a non-whitespace character (are truthy after `strip()`), the
aggregate buffer is A's output, a line-break separator, then B's output,
in checker-declaration order; when both outputs are empty the result of
the orchestrator over those two checkers is the absent report `none`,
not an empty report. -/
theorem run_checks_aggregation_pair (a b : List Char)
    (ha : hasNonWs a = true) (hb : hasNonWs b = true) :
    aggregate_output [a, b] = a ++ '\n' :: b ∧
    ∀ pp files, run_checks_over [Checker.filename, Checker.fileContent]
        (fun _ _ => []) pp files = none := by
  constructor
  · simp [aggregate_output, joinSep, List.filter, ha, hb]
  · intro pp files
    rfl

/-- C6, witness for `run_checks_aggregation_pair` at a concrete input. -/
theorem run_checks_aggregation_pair_wit :
    aggregate_output [("A").data, ("B").data] =
      ("A").data ++ '\n' :: ("B").data ∧
    run_checks_over [Checker.filename, Checker.fileContent]
      (fun _ _ => []) (("p").data) [] = none := by
  have h := run_checks_aggregation_pair (("A").data) (("B").data)
    (by decide) (by decide)
  exact ⟨h.1, h.2 (("p").data) []⟩

/-! ### Claim C9 -/

/-- C9 (confirmed): `run_checks` returns the absent report `none`
whenever every configured checker's captured standard output is empty or
whitespace-only; and any output in the aggregated buffer's input list
that contains a non-whitespace character appears in the aggregate buffer
verbatim (as a contiguous substring, untrimmed). -/
theorem run_checks_blank_none_verbatim
    (stdout : Checker → List (List Char) → List Char)
    (pp : List Char) (files : List (List Char)) :
    ((∀ c, c ∈ CHECKS →
        hasNonWs (stdout c (files.map (fun file_ => pp ++ '/' :: file_))) =
          false) →
      run_checks stdout pp files = none) ∧
    (∀ (outs : List (List Char)) (o : List Char),
      o ∈ outs → hasNonWs o = true →
      containsSub o (aggregate_output outs) = true) := by
  constructor
  · intro h
    have h1 := h Checker.filename (by simp [CHECKS])
    have h2 := h Checker.fileContent (by simp [CHECKS])
    have h3 := h Checker.fileContentNer (by simp [CHECKS])
    simp [run_checks, run_checks_over, CHECKS, aggregate_output,
      List.filter, h1, h2, h3, joinSep]
  · intro outs o ho hw
    have hmem : o ∈ outs.filter hasNonWs := List.mem_filter.mpr ⟨ho, hw⟩
    obtain ⟨ll, rr, hh⟩ := mem_joinSep_sub ['\n'] (outs.filter hasNonWs) o hmem
    rw [containsSub_iff]
    exact ⟨ll, rr, by rw [aggregate_output]; exact hh⟩

/-- C9, witness for `run_checks_blank_none_verbatim` at concrete inputs:
all-blank checker outputs give the absent report, and a non-blank output
occurs verbatim in the aggregate buffer. -/
theorem run_checks_blank_none_verbatim_wit :
    run_checks (fun _ _ => ("  \n").data) (("p").data) [] = none ∧
    containsSub (("x").data)
      (aggregate_output [("x").data, [], []]) = true := by
  refine ⟨(run_checks_blank_none_verbatim
      (fun _ _ => ("  \n").data) (("p").data) []).1 (by decide), ?_⟩
  exact (run_checks_blank_none_verbatim (fun _ _ => []) [] []).2
    [("x").data, [], []] (("x").data) (by decide) (by decide)

/-! ### Claim C8 -/

/-- C8, counterexample: for a request whose signature does not validate
(`sansio.Event.from_http` raises `ValidationFailure`), the handler leaves
the queue unchanged but answers with status 500, which is a server-error
status, not a client-error status as claimed. -/
theorem webhook_bad_signature_cex :
    webhook (Except.error (("signature does not match").data))
        (Except.ok ()) [] = (500, []) ∧
    ¬ isClientError 500 := by
  exact ⟨rfl, by simp [isClientError]⟩

/-- C8, amended: for every inbound webhook request whose signature does
not validate against the shared secret, no job is enqueued (the queue is
unchanged by the request) and the handler performs no further processing,
but it responds with status 500 — a server-error status, not a
client-error status (the handler's `except Exception` turns the
signature-validation failure into a 500 response). -/
theorem webhook_bad_signature_rejects (e : List Char)
    (instEffect : Except (List Char) Unit) (queue : List PushData) :
    webhook (Except.error e) instEffect queue = (500, queue) ∧
    ¬ isClientError 500 :=
  ⟨rfl, by simp [isClientError]⟩

/-! ### Claim C10 -/

/-- C10 (confirmed): a dequeued payload whose commits list is missing or
empty produces no clone, no commit resolution, no scan, no notification
and no workspace teardown; the worker only marks the queue item done and
raises nothing. -/
theorem worker_empty_job_noop (env : WorkerEnv) (url : List Char) :
    worker_step env { commits := none, gitUrl := url } =
      ([Effect.taskDone], none) ∧
    worker_step env { commits := some [], gitUrl := url } =
      ([Effect.taskDone], none) :=
  ⟨rfl, rfl⟩

/-! ### Claim C1 -/

/-- C1, counterexample: a commit whose added and modified lists are both
empty is not skipped.  With checkers that print findings even when
invoked with no file arguments, the worker both invokes `run_checks`
(with an empty file list) and dispatches a notification for that
commit. -/
theorem worker_empty_fileset_cex :
    let env : WorkerEnv :=
      { clone := fun _ => Except.ok (("p").data),
        resolveCommit := fun _ => Except.ok (),
        checksRaise := fun _ _ => none,
        stdout := fun _ _ => ("PII found").data }
    let c : CommitRecord :=
      { id := ("c1").data, url := ("u").data, authorName := ("a").data,
        added := [], modified := [] }
    c.added = [] ∧ c.modified = [] ∧
    Effect.scan (("p").data) [] ∈ (processCommit env (("p").data) c).1 ∧
    Effect.notify (findingsMsg c
        (("PII found\nPII found\nPII found").data)) ∈
      (processCommit env (("p").data) c).1 := by
  decide

/-- C1, amended: for a commit whose added and modified lists are both
empty (and whose id resolves), the worker does not skip the commit: it
still invokes `run_checks` with the empty file list (each checker runs
with no file arguments), and a notification is dispatched for the commit
iff that call raises (error notification) or returns a truthy report
(findings notification). -/
theorem worker_empty_fileset_scans (env : WorkerEnv) (pp : List Char)
    (c : CommitRecord) (ha : c.added = []) (hm : c.modified = [])
    (hres : env.resolveCommit c.id = Except.ok ()) :
    Effect.scan pp [] ∈ (processCommit env pp c).1 ∧
    ((∃ m, Effect.notify m ∈ (processCommit env pp c).1) ↔
      (env.checksRaise pp [] ≠ none ∨
        ∃ out, run_checks env.stdout pp [] = some out ∧ out ≠ [])) := by
  have hfiles : commitFiles c = [] := by simp [commitFiles, ha, hm]
  cases h1 : env.checksRaise pp (commitFiles c) with
  | some e =>
    rw [processCommit_raise env pp c e hres h1, hfiles]
    rw [hfiles] at h1
    constructor
    · simp
    · constructor
      · intro _
        exact Or.inl (by simp [h1])
      · intro _
        exact ⟨errMsg e, by simp⟩
  | none =>
    rw [hfiles] at h1
    cases h2 : run_checks env.stdout pp (commitFiles c) with
    | none =>
      rw [processCommit_noreport env pp c hres (by rw [hfiles]; exact h1)
        h2, hfiles]
      rw [hfiles] at h2
      constructor
      · simp
      · constructor
        · rintro ⟨m, hmem⟩
          simp at hmem
        · rintro (hne | ⟨out, hout, -⟩)
          · exact absurd h1 hne
          · rw [h2] at hout
            cases hout
    | some out =>
      cases hout : out with
      | nil =>
        subst hout
        rw [processCommit_emptyreport env pp c hres
          (by rw [hfiles]; exact h1) h2, hfiles]
        rw [hfiles] at h2
        constructor
        · simp
        · constructor
          · rintro ⟨m, hmem⟩
            simp at hmem
          · rintro (hne | ⟨out2, hout2, hne2⟩)
            · exact absurd h1 hne
            · rw [h2] at hout2
              cases hout2
              exact absurd rfl hne2
      | cons o os =>
        subst hout
        rw [processCommit_hit env pp c (o :: os) hres
          (by rw [hfiles]; exact h1) h2 (by simp), hfiles]
        rw [hfiles] at h2
        constructor
        · simp
        · constructor
          · intro _
            exact Or.inr ⟨o :: os, h2, by simp⟩
          · intro _
            exact ⟨findingsMsg c (o :: os), by simp⟩

/-- C1, witness for `worker_empty_fileset_scans` at a concrete input. -/
theorem worker_empty_fileset_scans_wit :
    let env : WorkerEnv :=
      { clone := fun _ => Except.ok (("p").data),
        resolveCommit := fun _ => Except.ok (),
        checksRaise := fun _ _ => none,
        stdout := fun _ _ => ("PII").data }
    let c : CommitRecord :=
      { id := ("c1").data, url := ("u").data, authorName := ("a").data,
        added := [], modified := [] }
    Effect.scan (("p").data) [] ∈ (processCommit env (("p").data) c).1 ∧
    ((∃ m, Effect.notify m ∈ (processCommit env (("p").data) c).1) ↔
      (env.checksRaise (("p").data) [] ≠ none ∨
        ∃ out, run_checks env.stdout (("p").data) [] = some out ∧
          out ≠ [])) := by
  exact worker_empty_fileset_scans _ _ _ rfl rfl rfl

/-! ### Claim C2 -/

/-- C2, counterexample: a failure to resolve the first commit's
identifier aborts the whole job with an uncaught exception — the second
commit is never resolved, scanned or notified, the workspace is never
torn down, and the queue item is never marked done. -/
theorem worker_resolve_failure_cex :
    worker_step
        { clone := fun _ => Except.ok (("p").data),
          resolveCommit := fun _ => Except.error (("NameError").data),
          checksRaise := fun _ _ => none,
          stdout := fun _ _ => [] }
        { commits := some
            [{ id := ("c1").data, url := ("u1").data,
               authorName := ("a").data, added := [("f1").data],
               modified := [] },
             { id := ("c2").data, url := ("u2").data,
               authorName := ("a").data, added := [("f2").data],
               modified := [] }],
          gitUrl := ("g").data } =
      ([Effect.clone (("g").data), Effect.resolve (("c1").data)],
        some (("NameError").data)) ∧
    Effect.resolve (("c2").data) ∉
      [Effect.clone (("g").data), Effect.resolve (("c1").data)] := by
  decide

/-- C2, amended: an exception raised while resolving a commit's
identifier (line 158, outside the `try` of line 162 — and in the source
the name `repo` there is unbound, so the step raises unconditionally)
propagates uncaught: the job is aborted, the remaining commits are not
processed, and no teardown or `task_done` happens. -/
theorem worker_resolve_failure_aborts (env : WorkerEnv)
    (data : PushData) (c : CommitRecord) (rest : List CommitRecord)
    (pp e : List Char)
    (hc : data.commits = some (c :: rest))
    (hclone : env.clone data.gitUrl = Except.ok pp)
    (hres : env.resolveCommit c.id = Except.error e) :
    worker_step env data =
      ([Effect.clone data.gitUrl, Effect.resolve c.id], some e) := by
  have h1 : processCommits env pp (c :: rest) =
      ([Effect.resolve c.id], some e) := by
    simp only [processCommits, processCommit_resolve_err env pp c e hres]
  simp only [worker_step, hc, Option.getD_some, List.isEmpty_cons,
    Bool.false_eq_true, if_false, hclone, h1]

/-- C2, witness for `worker_resolve_failure_aborts` at a concrete
input. -/
theorem worker_resolve_failure_aborts_wit :
    worker_step
        { clone := fun _ => Except.ok (("p").data),
          resolveCommit := fun _ => Except.error (("BadName").data),
          checksRaise := fun _ _ => none,
          stdout := fun _ _ => [] }
        { commits := some
            [{ id := ("c1").data, url := ("u1").data,
               authorName := ("a").data, added := [("f1").data],
               modified := [] }],
          gitUrl := ("g").data } =
      ([Effect.clone (("g").data), Effect.resolve (("c1").data)],
        some (("BadName").data)) := by
  exact worker_resolve_failure_aborts
    { clone := fun _ => Except.ok (("p").data),
      resolveCommit := fun _ => Except.error (("BadName").data),
      checksRaise := fun _ _ => none,
      stdout := fun _ _ => [] }
    { commits := some
        [{ id := ("c1").data, url := ("u1").data,
           authorName := ("a").data, added := [("f1").data],
           modified := [] }],
      gitUrl := ("g").data }
    { id := ("c1").data, url := ("u1").data, authorName := ("a").data,
      added := [("f1").data], modified := [] }
    [] (("p").data) (("BadName").data) rfl rfl rfl

/-! ### Claim C3 -/

/-- C3 (confirmed): for a job with commits whose clone succeeds and whose
commit ids all resolve, the worker schedules workspace teardown exactly
once, after the last commit's effects, regardless of how many commits
failed during scanning (`checksRaise` and `stdout` are unconstrained);
the commit loop itself never schedules a teardown, so it is never invoked
twice for one job. -/
theorem worker_teardown_once (env : WorkerEnv) (data : PushData)
    (cs : List CommitRecord) (pp : List Char)
    (hc : data.commits = some cs) (hne : cs ≠ [])
    (hclone : env.clone data.gitUrl = Except.ok pp)
    (hres : ∀ c, c ∈ cs → env.resolveCommit c.id = Except.ok ()) :
    (worker_step env data).1 =
      Effect.clone data.gitUrl ::
        ((processCommits env pp cs).1 ++
          [Effect.teardown pp, Effect.taskDone]) ∧
    countTeardown (worker_step env data).1 = 1 ∧
    countTeardown (processCommits env pp cs).1 = 0 := by
  have hsnd := processCommits_snd_none env pp cs hres
  have hstep := worker_step_ok env data cs pp hc hne hclone hsnd
  refine ⟨by rw [hstep], ?_, processCommits_no_teardown env pp cs⟩
  rw [hstep]
  show countTeardown (Effect.clone data.gitUrl ::
    ((processCommits env pp cs).1 ++ [Effect.teardown pp, Effect.taskDone])) = 1
  rw [countTeardown, List.countP_cons, List.countP_append]
  have h0 := processCommits_no_teardown env pp cs
  rw [countTeardown] at h0
  rw [h0]
  rfl

/-- C3, witness for `worker_teardown_once` at a concrete input (one
commit whose scan raises: the teardown still happens exactly once). -/
theorem worker_teardown_once_wit :
    countTeardown
      (worker_step
        { clone := fun _ => Except.ok (("p").data),
          resolveCommit := fun _ => Except.ok (),
          checksRaise := fun _ _ => some (("FileNotFoundError").data),
          stdout := fun _ _ => [] }
        { commits := some
            [{ id := ("c1").data, url := ("u1").data,
               authorName := ("a").data, added := [("f1").data],
               modified := [] }],
          gitUrl := ("g").data }).1 = 1 := by
  exact (worker_teardown_once
    { clone := fun _ => Except.ok (("p").data),
      resolveCommit := fun _ => Except.ok (),
      checksRaise := fun _ _ => some (("FileNotFoundError").data),
      stdout := fun _ _ => [] }
    { commits := some
        [{ id := ("c1").data, url := ("u1").data,
           authorName := ("a").data, added := [("f1").data],
           modified := [] }],
      gitUrl := ("g").data }
    [{ id := ("c1").data, url := ("u1").data, authorName := ("a").data,
       added := [("f1").data], modified := [] }]
    (("p").data) rfl (by decide) rfl
    (fun c _ => rfl)).2.1

/-! ### Claim C5 -/

/-- C5 (confirmed): when invoking `run_checks` for a commit raises an
operational error, the worker catches it, dispatches exactly one error
notification describing the failure, and the loop continues with the next
commit of the same job — the job is not aborted. -/
theorem worker_scan_error_contained (env : WorkerEnv) (pp : List Char)
    (c : CommitRecord) (rest : List CommitRecord) (e : List Char)
    (hres : env.resolveCommit c.id = Except.ok ())
    (hraise : env.checksRaise pp (commitFiles c) = some e) :
    processCommit env pp c =
      ([Effect.resolve c.id, Effect.scan pp (commitFiles c),
        Effect.notify (errMsg e)], none) ∧
    processCommits env pp (c :: rest) =
      ((processCommit env pp c).1 ++ (processCommits env pp rest).1,
        (processCommits env pp rest).2) := by
  have h1 := processCommit_raise env pp c e hres hraise
  exact ⟨h1, processCommits_cons env pp c rest (by rw [h1])⟩

/-- C5, witness for `worker_scan_error_contained` at a concrete input:
the next commit of the job is still resolved and scanned. -/
theorem worker_scan_error_contained_wit :
    let env : WorkerEnv :=
      { clone := fun _ => Except.ok (("p").data),
        resolveCommit := fun _ => Except.ok (),
        checksRaise := fun _ files =>
          if files = [("f1").data] then
            some (("FileNotFoundError").data)
          else none,
        stdout := fun _ _ => [] }
    let c1 : CommitRecord :=
      { id := ("c1").data, url := ("u1").data, authorName := ("a").data,
        added := [("f1").data], modified := [] }
    let c2 : CommitRecord :=
      { id := ("c2").data, url := ("u2").data, authorName := ("a").data,
        added := [("f2").data], modified := [] }
    processCommit env (("p").data) c1 =
      ([Effect.resolve (("c1").data),
        Effect.scan (("p").data) [("f1").data],
        Effect.notify (errMsg (("FileNotFoundError").data))], none) ∧
    processCommits env (("p").data) [c1, c2] =
      ((processCommit env (("p").data) c1).1 ++
        (processCommits env (("p").data) [c2]).1,
        (processCommits env (("p").data) [c2]).2) := by
  exact worker_scan_error_contained _ _ _ _ _ rfl rfl

/-! ### Claim C7 -/

/-- C7 (confirmed): for a commit whose scan completes, a report with
non-empty aggregated text yields exactly one findings notification
(carrying the commit url, author name and report via `findingsMsg`) as
the commit's last effect, before any effect of the next commit; a scan
yielding no findings (`None` or the falsy empty report) yields no
notification for that commit. -/
theorem worker_findings_notify (env : WorkerEnv) (pp : List Char)
    (c : CommitRecord) (rest : List CommitRecord)
    (hres : env.resolveCommit c.id = Except.ok ())
    (hraise : env.checksRaise pp (commitFiles c) = none) :
    (∀ out, run_checks env.stdout pp (commitFiles c) = some out →
      out ≠ [] →
      processCommit env pp c =
        ([Effect.resolve c.id, Effect.scan pp (commitFiles c),
          Effect.notify (findingsMsg c out)], none)) ∧
    (run_checks env.stdout pp (commitFiles c) = none →
      processCommit env pp c =
        ([Effect.resolve c.id, Effect.scan pp (commitFiles c)], none)) ∧
    (run_checks env.stdout pp (commitFiles c) = some [] →
      processCommit env pp c =
        ([Effect.resolve c.id, Effect.scan pp (commitFiles c)], none)) ∧
    (processCommits env pp (c :: rest)).1 =
      (processCommit env pp c).1 ++ (processCommits env pp rest).1 := by
  refine ⟨fun out hrun hne => processCommit_hit env pp c out hres hraise hrun hne,
    fun hrun => processCommit_noreport env pp c hres hraise hrun,
    fun hrun => processCommit_emptyreport env pp c hres hraise hrun, ?_⟩
  rw [processCommits_cons env pp c rest (processCommit_snd_none env pp c hres)]

/-- C7, witness for `worker_findings_notify` at a concrete input. -/
theorem worker_findings_notify_wit :
    let env : WorkerEnv :=
      { clone := fun _ => Except.ok (("p").data),
        resolveCommit := fun _ => Except.ok (),
        checksRaise := fun _ _ => none,
        stdout := fun command _ =>
          if command = Checker.filename then ("PII found").data else [] }
    let c : CommitRecord :=
      { id := ("c1").data, url := ("u1").data, authorName := ("a").data,
        added := [("f1").data], modified := [] }
    run_checks env.stdout (("p").data) (commitFiles c) =
      some (("PII found").data) ∧
    processCommit env (("p").data) c =
      ([Effect.resolve (("c1").data),
        Effect.scan (("p").data) [("f1").data],
        Effect.notify (findingsMsg c (("PII found").data))], none) := by
  intro env c
  have hrun : run_checks env.stdout (("p").data) (commitFiles c) =
      some (("PII found").data) := by decide
  exact ⟨hrun,
    (worker_findings_notify env (("p").data) c [] rfl rfl).1
      (("PII found").data) hrun (by decide)⟩
